import Mathlib

/-!
Shallow embedding of the playback-state engine of the `iced_video_player`
repository (files `src/video.rs` and `src/video_player.rs`).

Modelling conventions:
* GStreamer backend effects are recorded as an explicit `Command` trace;
  backend acceptance of a seek is an oracle parameter (`seekOk`).
* `f32`/`f64` arithmetic is modelled by exact rational arithmetic over `ℚ`;
  the saturating Rust `as u8` cast from a float is modelled explicitly.
* `u64` arithmetic is `ℕ` with explicit `% 2^64` where the source can wrap.
* Fallible paths return `Option`/`Except`; a Rust panic (out-of-bounds index)
  is `Option.none`.
-/

namespace IcedVideoPlayer

/-- GStreamer pipeline states (`gst::State`). -/
inductive GstState
  | null
  | ready
  | paused
  | playing
  deriving DecidableEq, Repr

/-- `Position` from `src/video.rs`: either a time offset (nanoseconds) or a
frame index. -/
inductive Position
  | time (ns : Nat)
  | frame (n : Nat)
  deriving DecidableEq, Repr

/-- A seek bound as handed to `gst::Pipeline::seek`: `SeekType::Set` with a
formatted value, `SeekType::End` with a nanosecond offset, or an unset bound
(`ClockTime::NONE` / `Default::NONE`). -/
inductive SeekBound
  | set (v : Position)
  | fromEnd (ns : Nat)
  | unset
  deriving DecidableEq, Repr

/-- Commands issued to the GStreamer backend by the engine, in program order. -/
inductive Command
  | setState (st : GstState)
  | seek (rate : ℚ) (flush accurate : Bool) (start stop : SeekBound)
  | setAvOffset (v : ℤ)
  | setMute (b : Bool)
  deriving DecidableEq, Repr

/-- Error kinds of the crate (`Error` in `lib.rs`, which is not under `src/`).
Modelled from the spec: §7 lists `InitError`, `CapsError`, `FramerateError`,
`Cast`/`TypeError`, `SeekError`, `LockError`; a backend-rejected seek converts
to `SeekError`. -/
inductive Error
  | init
  | caps
  | framerate (value : ℚ)
  | cast
  | seek
  | lock
  deriving DecidableEq, Repr

/-- Messages popped from the bus in `VideoPlayer::update`
(`pop_filtered(&[MessageType::Error, MessageType::Eos])`). -/
inductive BusMsg
  | error
  | eos
  deriving DecidableEq, Repr

/-- The transport-relevant fields of `Internal` (`src/video.rs:112-140`),
together with the backend-side observables they control: `srcState` is the
current state of the `source` pipeline and `position` its playback position
in nanoseconds. `framePoisoned` records whether the `frame` mutex has been
poisoned by a panic in the pump thread. -/
structure Internal where
  speed : ℚ
  looping : Bool
  is_eos : Bool
  restart_stream : Bool
  muted : Bool
  srcState : GstState
  position : Nat
  width : Nat
  height : Nat
  sync_av : Bool
  sync_av_avg : Nat
  sync_av_counter : Nat
  framePoisoned : Bool
  deriving DecidableEq, Repr

/-- Nanosecond playback position the backend lands on after a seek to a given
`Position`; time positions are their own nanosecond value, frame positions go
through an external frame→time oracle. -/
def Position.toNs (frameNs : Nat → Nat) : Position → Nat
  | .time ns => ns
  | .frame n => frameNs n

/-- `Internal::seek` (`src/video.rs:143-177`): a flush seek (plus `ACCURATE`
when requested) with `SeekType::Set` at the requested position and an unset
stop bound, at the stored rate. `seekOk` is the backend's verdict; a rejected
seek leaves the backend position unchanged and surfaces `Error::Seek`. -/
def Internal.seek (seekOk : Bool) (frameNs : Nat → Nat) (s : Internal)
    (pos : Position) (accurate : Bool) : Internal × List Command × Option Error :=
  let cmd := Command.seek s.speed true accurate (SeekBound.set pos) SeekBound.unset
  if seekOk then
    ({ s with position := pos.toNs frameNs }, [cmd], none)
  else
    (s, [cmd], some Error.seek)

/-- `Internal::set_speed` (`src/video.rs:179-204`). `query` is the result of
`query_position::<ClockTime>()` in nanoseconds. Returns the issued commands,
the post-state and the error, mirroring `&mut self` plus `Result`. -/
def Internal.set_speed (query : Option Nat) (seekOk : Bool) (s : Internal)
    (speed : ℚ) : List Command × Internal × Option Error :=
  match query with
  | none => ([], s, some Error.caps)
  | some position =>
    let cmd :=
      if speed > 0 then
        Command.seek speed true true (SeekBound.set (Position.time position))
          (SeekBound.fromEnd 0)
      else
        Command.seek speed true true (SeekBound.set (Position.time 0))
          (SeekBound.set (Position.time position))
    if seekOk then
      ([cmd], { s with speed := speed }, none)
    else
      ([cmd], s, some Error.seek)

/-- `Internal::set_paused` (`src/video.rs:213-226`): sets the backend state to
`Paused`/`Playing`, then arms `restart_stream` when leaving pause at EOS. -/
def Internal.set_paused (s : Internal) (paused : Bool) : Internal × List Command :=
  let tgt := if paused then GstState.paused else GstState.playing
  let s1 := { s with srcState := tgt }
  let s2 := if s1.is_eos && !paused then { s1 with restart_stream := true } else s1
  (s2, [Command.setState tgt])

/-- `Internal::paused` (`src/video.rs:228-230`): the backend state is queried,
not cached. -/
def Internal.paused (s : Internal) : Bool :=
  s.srcState == GstState.paused

/-- `Internal::restart_stream` (`src/video.rs:206-211`): clear `is_eos`,
unpause, then seek to frame 0 (`self.seek(0, false)`, inaccurate). Named
`restartStream` because the `restart_stream` field occupies that name. -/
def Internal.restartStream (seekOk : Bool) (frameNs : Nat → Nat)
    (s : Internal) : Internal × List Command × Option Error :=
  let s0 := { s with is_eos := false }
  let p1 := s0.set_paused false
  let p2 := p1.1.seek seekOk frameNs (Position.frame 0) false
  (p2.1, p1.2 ++ p2.2.1, p2.2.2)

/-- Two's-complement reinterpretation `u64 → i64` (`self.sync_av_avg as i64`). -/
def toI64 (n : Nat) : ℤ :=
  if n % 2 ^ 64 < 2 ^ 63 then (n % 2 ^ 64 : ℤ) else (n % 2 ^ 64 : ℤ) - 2 ^ 64

/-- `Internal::set_av_offset` (`src/video.rs:233-243`): when the backend
supports the `av-offset` property, bump the sample counter, fold the new
latency sample (nanoseconds, `as_nanos() as u64`) into the running average
with `u64` arithmetic, and push `-(avg as i64)` every 128th update. -/
def Internal.set_av_offset (s : Internal) (offsetNs : Nat) : Internal × List Command :=
  if s.sync_av then
    let counter := (s.sync_av_counter + 1) % 2 ^ 64
    let avg := (s.sync_av_avg * (counter - 1) % 2 ^ 64 / counter
      + offsetNs % 2 ^ 64 / counter) % 2 ^ 64
    let s1 := { s with sync_av_counter := counter, sync_av_avg := avg }
    if counter % 128 == 0 then
      (s1, [Command.setAvOffset (-(toI64 avg))])
    else
      (s1, [])
  else
    (s, [])

/-- `Video::set_muted` (`src/video.rs:661-663`): sets the `mute` property. -/
def Video.set_muted (s : Internal) (m : Bool) : Internal × List Command :=
  ({ s with muted := m }, [Command.setMute m])

/-- The bus-draining `while let Some(msg) = pop_filtered(..)` loop of
`VideoPlayer::update` (`src/video_player.rs:428-451`), folding the two
mutable flags `(restart_stream, eos_pause)` over the drained messages: an
EOS message sets `restart_stream` when looping and `eos_pause` otherwise;
error messages only notify and leave the flags alone. -/
def drainFlags (looping : Bool) : List BusMsg → Bool × Bool → Bool × Bool
  | [], acc => acc
  | msg :: rest, acc =>
    drainFlags looping rest
      (match msg with
        | BusMsg.eos => if looping then (true, acc.2) else (acc.1, true)
        | BusMsg.error => acc)

/-- The `Event::Window(RedrawRequested)` arm of `VideoPlayer::update`
(`src/video_player.rs:417-461`), restricted to the engine-state effects.
`msgs` are the messages `pop_filtered` drains from the bus this tick, in
order. Returns the post-state and the backend commands issued. -/
def VideoPlayer.update_redraw (seekOk : Bool) (frameNs : Nat → Nat)
    (msgs : List BusMsg) (s : Internal) : Internal × List Command :=
  if s.restart_stream || (!s.is_eos && !s.paused) then
    let restart0 := s.restart_stream
    let s1 := if s.restart_stream then { s with restart_stream := false } else s
    let flags := drainFlags s1.looping msgs (restart0, false)
    if flags.1 then
      let r := s1.restartStream seekOk frameNs
      (r.1, r.2.1)
    else if flags.2 then
      let s2 := { s1 with is_eos := true }
      let p := s2.set_paused true
      (p.1, p.2)
    else
      (s1, [])
  else
    (s, [])

/-- The `last_frame_time` read in `VideoPlayer::draw`
(`src/video_player.rs:313-317`): `lock().map(|t| *t).unwrap_or_else(|_|
Instant::now())` — a poisoned lock is replaced by the current instant, no
error is surfaced. -/
def VideoPlayer.drawLastFrameTime (poisoned : Bool) (stored now : Nat) : Nat :=
  if poisoned then now else stored

/-- The AV-sync part of `VideoPlayer::draw` (`src/video_player.rs:310-319`):
when a fresh frame was taken, feed `now - last_frame_time` to
`set_av_offset`. -/
def VideoPlayer.drawSync (poisoned : Bool) (stored now : Nat)
    (uploadFrame : Bool) (s : Internal) : Internal × List Command :=
  if uploadFrame then
    s.set_av_offset (now - VideoPlayer.drawLastFrameTime poisoned stored now)
  else
    (s, [])

/-- The `videobalance` element's adjustable properties. -/
structure BalanceElement where
  brightness : ℚ
  contrast : ℚ
  hue : ℚ
  saturation : ℚ
  deriving DecidableEq, Repr

/-- The `gamma` element's adjustable property. -/
structure GammaElement where
  gamma : ℚ
  deriving DecidableEq, Repr

/-- `VideoFilters` (`src/video.rs:60-110`): optional `videobalance` and
`gamma` elements. -/
structure VideoFilters where
  balance : Option BalanceElement
  gamma : Option GammaElement
  deriving DecidableEq, Repr

/-- Rust `f64::clamp(lo, hi)` for `lo ≤ hi`: `if self < min { min } else if
self > max { max } else { self }`. -/
def rclamp (x lo hi : ℚ) : ℚ :=
  if x < lo then lo else if x > hi then hi else x

/-- `Video::gamma` (`src/video.rs:542-549`): the element's property when the
gamma filter is present, `1.0` otherwise. -/
def Video.gamma (f : VideoFilters) : ℚ :=
  match f.gamma with
  | some bin => bin.gamma
  | none => 1

/-- `Video::set_gamma` (`src/video.rs:553-560`): no-op without the gamma
filter, otherwise applies the value clamped to `[1.0, 3.0]`. -/
def Video.set_gamma (f : VideoFilters) (x : ℚ) : VideoFilters :=
  match f.gamma with
  | none => f
  | some bin => { f with gamma := some { bin with gamma := rclamp x 1 3 } }

/-- `Video::brightness` (`src/video.rs:563-570`): default `0.0` when the
balance filter is absent. -/
def Video.brightness (f : VideoFilters) : ℚ :=
  match f.balance with
  | some bal => bal.brightness
  | none => 0

/-- `Video::set_brightness` (`src/video.rs:574-581`): clamps to `[-1.0, 1.0]`,
no-op without the balance filter. -/
def Video.set_brightness (f : VideoFilters) (x : ℚ) : VideoFilters :=
  match f.balance with
  | none => f
  | some bal => { f with balance := some { bal with brightness := rclamp x (-1) 1 } }

/-- `Video::contrast` (`src/video.rs:584-591`): default `1.0` when the balance
filter is absent. -/
def Video.contrast (f : VideoFilters) : ℚ :=
  match f.balance with
  | some bal => bal.contrast
  | none => 1

/-- `Video::set_contrast` (`src/video.rs:595-602`): clamps to `[0.0, 2.0]`,
no-op without the balance filter. -/
def Video.set_contrast (f : VideoFilters) (x : ℚ) : VideoFilters :=
  match f.balance with
  | none => f
  | some bal => { f with balance := some { bal with contrast := rclamp x 0 2 } }

/-- `Video::hue` (`src/video.rs:605-612`): default `0.0` when the balance
filter is absent. -/
def Video.hue (f : VideoFilters) : ℚ :=
  match f.balance with
  | some bal => bal.hue
  | none => 0

/-- `Video::set_hue` (`src/video.rs:616-623`): clamps to `[-1.0, 1.0]`, no-op
without the balance filter. -/
def Video.set_hue (f : VideoFilters) (x : ℚ) : VideoFilters :=
  match f.balance with
  | none => f
  | some bal => { f with balance := some { bal with hue := rclamp x (-1) 1 } }

/-- `Video::saturation` (`src/video.rs:626-633`): default `1.0` when the
balance filter is absent. -/
def Video.saturation (f : VideoFilters) : ℚ :=
  match f.balance with
  | some bal => bal.saturation
  | none => 1

/-- `Video::set_saturation` (`src/video.rs:637-644`): clamps to `[0.0, 2.0]`,
no-op without the balance filter. -/
def Video.set_saturation (f : VideoFilters) (x : ℚ) : VideoFilters :=
  match f.balance with
  | none => f
  | some bal => { f with balance := some { bal with saturation := rclamp x 0 2 } }

/-- Rust `as u8` applied to a (non-NaN) float: truncate toward zero, then
saturate into `0..=255`. -/
def u8cast (q : ℚ) : Nat :=
  if q < 0 then 0 else min 255 (Int.toNat ⌊q⌋)

/-- The per-pixel body of `yuv_to_rgba` (`src/video.rs:880-887`), with the
`f32` arithmetic modelled by exact rational arithmetic. -/
def pixelRGBA (yb ub vb : Nat) : List Nat :=
  let y : ℚ := yb
  let u : ℚ := ub
  let v : ℚ := vb
  let r := 1.164 * (y - 16) + 1.596 * (v - 128)
  let g := 1.164 * (y - 16) - 0.813 * (v - 128) - 0.391 * (u - 128)
  let b := 1.164 * (y - 16) + 2.018 * (u - 128)
  [u8cast r, u8cast g, u8cast b, 255]

/-- Option-valued map collecting all results; `none` as soon as one element
fails (models a Rust panic aborting the loop). -/
def optMapM {α β : Type} (f : α → Option β) : List α → Option (List β)
  | [] => some []
  | a :: l =>
    match f a, optMapM f l with
    | some b, some bs => some (b :: bs)
    | _, _ => none

/-- One output pixel of `yuv_to_rgba` (`src/video.rs:869-888` loop body):
reads the luma byte at `y_src * width + x_src` and the interleaved chroma pair
at `uv_start + width * (y_src / 2) + x_src / 2 * 2` with
`uv_start = width * height`; `none` when an index is out of bounds (a Rust
panic). -/
def yuvPixel (yuv : List Nat) (width height downscale : Nat) (y x : Nat) :
    Option (List Nat) :=
  let uv_start := width * height
  let x_src := x * downscale
  let y_src := y * downscale
  let uv_i := uv_start + width * (y_src / 2) + x_src / 2 * 2
  match yuv[y_src * width + x_src]?, yuv[uv_i]?, yuv[uv_i + 1]? with
  | some yb, some ub, some vb => some (pixelRGBA yb ub vb)
  | _, _, _ => none

/-- `yuv_to_rgba` (`src/video.rs:865-892`): NV12 → RGBA conversion downscaled
by `downscale`, iterating rows `0..height/downscale` and columns
`0..width/downscale`; `none` models a panic from an out-of-bounds index. -/
def yuv_to_rgba (yuv : List Nat) (width height downscale : Nat) :
    Option (List Nat) :=
  match optMapM
    (fun y => optMapM (fun x => yuvPixel yuv width height downscale y x)
      (List.range (width / downscale)))
    (List.range (height / downscale)) with
  | some rows => some rows.flatten.flatten
  | none => none

/-- The per-position loop of `Video::thumbnails` (`src/video.rs:837-854`),
collected like `collect::<Result<Vec<_>, _>>` (stops at the first error).
Each iteration seeks accurately, then reads the frame buffer: a poisoned
`frame` mutex or an unreadable buffer maps to `Error::Lock`; `frames i` is
the NV12 byte content the pump thread has published by iteration `i`
(`none` when `readable()` fails). `none` overall models a panic inside
`yuv_to_rgba`. Returns post-state, issued commands and the collected
result. -/
def thumbLoop (seekOk : Bool) (frameNs : Nat → Nat)
    (frames : Nat → Option (List Nat)) (w h d : Nat) :
    List Position → Nat → Internal →
    Option (Internal × List Command × Except Error (List (List Nat)))
  | [], _, st => some (st, [], Except.ok [])
  | p :: ps, i, st =>
    let r := st.seek seekOk frameNs p true
    match r.2.2 with
    | some e => some (r.1, r.2.1, Except.error e)
    | none =>
      if r.1.framePoisoned then some (r.1, r.2.1, Except.error Error.lock)
      else
        match frames i with
        | none => some (r.1, r.2.1, Except.error Error.lock)
        | some bytes =>
          match yuv_to_rgba bytes w h d with
          | none => none
          | some img =>
            match thumbLoop seekOk frameNs frames w h d ps (i + 1) r.1 with
            | none => none
            | some (st2, cs2, Except.error e) =>
              some (st2, r.2.1 ++ cs2, Except.error e)
            | some (st2, cs2, Except.ok imgs) =>
              some (st2, r.2.1 ++ cs2, Except.ok (img :: imgs))

/-- `Video::thumbnails` (`src/video.rs:816-862`). `query` is the initial
`query_position` result (its failure makes `Video::position` report 0);
`d` is `u8::from(downscale) as u32`. Captures paused/muted/position, unpauses
and mutes, runs the per-position loop, then restores paused and muted and
seeks back — the final `self.seek(pos, true)?` error takes precedence over
the collected result. `none` models a panic (no restoration happens). -/
def Video.thumbnails (seekOk : Bool) (frameNs : Nat → Nat)
    (query : Option Nat) (frames : Nat → Option (List Nat)) (s : Internal)
    (positions : List Position) (d : Nat) :
    Option (Internal × List Command × Except Error (List (List Nat))) :=
  let paused := s.paused
  let muted := s.muted
  let pos := query.getD 0
  let p1 := s.set_paused false
  let p2 := Video.set_muted p1.1 true
  match thumbLoop seekOk frameNs frames s.width s.height d positions 0 p2.1 with
  | none => none
  | some (st, csLoop, out) =>
    let p3 := st.set_paused paused
    let p4 := Video.set_muted p3.1 muted
    let p5 := p4.1.seek seekOk frameNs (Position.time pos) true
    let res : Except Error (List (List Nat)) :=
      match p5.2.2 with
      | some e => Except.error e
      | none => out
    some (p5.1, p1.2 ++ p2.2 ++ csLoop ++ p3.2 ++ p4.2 ++ p5.2.1, res)

/-- A concrete engine state used to instantiate theorems: playing, not muted,
not at EOS, no restart pending. -/
def exState : Internal :=
  { speed := 1, looping := false, is_eos := false, restart_stream := false,
    muted := false, srcState := GstState.playing, position := 0,
    width := 2, height := 2, sync_av := true, sync_av_avg := 0,
    sync_av_counter := 0, framePoisoned := false }

/-- A concrete engine state that is paused at end of stream. -/
def eosState : Internal :=
  { exState with is_eos := true, srcState := GstState.paused }

/-- C1: `Internal::set_speed` with a queryable position issues exactly one
flush (and accurate) seek; for a positive rate its start bound is
`SeekType::Set` at the queried position and its stop bound `SeekType::End`
at offset 0 (the stream end), at the new rate; for a non-positive rate the
start bound is position 0 and the stop bound the queried position, at the
new rate. -/
theorem set_speed_seek_anchoring (s : Internal) (p : Nat) (speed : ℚ)
    (seekOk : Bool) :
    (speed > 0 →
      (Internal.set_speed (some p) seekOk s speed).1 =
        [Command.seek speed true true (SeekBound.set (Position.time p))
          (SeekBound.fromEnd 0)]) ∧
    (¬ speed > 0 →
      (Internal.set_speed (some p) seekOk s speed).1 =
        [Command.seek speed true true (SeekBound.set (Position.time 0))
          (SeekBound.set (Position.time p))]) := by
  constructor <;> intro h <;> simp [Internal.set_speed, h] <;> cases seekOk <;> simp

/-- Witness for `set_speed_seek_anchoring` at rate 2 (forward) and rate -1
(reverse) from position 5. -/
theorem set_speed_seek_anchoring_witness :
    (Internal.set_speed (some 5) true exState 2).1 =
      [Command.seek 2 true true (SeekBound.set (Position.time 5))
        (SeekBound.fromEnd 0)] ∧
    (Internal.set_speed (some 5) true exState (-1)).1 =
      [Command.seek (-1) true true (SeekBound.set (Position.time 0))
        (SeekBound.set (Position.time 5))] :=
  ⟨(set_speed_seek_anchoring exState 5 2 true).1 (by norm_num),
   (set_speed_seek_anchoring exState 5 (-1) true).2 (by norm_num)⟩

/-- C8: `Internal::set_speed` returns `CapsError` when the position query
fails and `SeekError` when the backend rejects the seek, leaving the stored
speed (indeed the whole state) unchanged in both cases; on success it
updates the stored speed to the new rate. -/
theorem set_speed_error_no_update (s : Internal) (p : Nat) (speed : ℚ)
    (seekOk : Bool) :
    (Internal.set_speed none seekOk s speed).2 = (s, some Error.caps) ∧
    (Internal.set_speed (some p) false s speed).2 = (s, some Error.seek) ∧
    (Internal.set_speed (some p) true s speed).2 =
      ({ s with speed := speed }, none) := by
  refine ⟨rfl, ?_, ?_⟩ <;> by_cases h : speed > 0 <;> simp [Internal.set_speed, h]

/-- C3 counterexample: at a concrete paused EOS state, `set_paused(false)`
does transition the backend to the playing state (it issues
`set_state(Playing)` unconditionally, at `src/video.rs:214-220`, before
arming `restart_stream`), contradicting the claim that the backend is not
transitioned to the playing state by this call. -/
theorem set_paused_eos_transitions_backend :
    eosState.is_eos = true ∧
    (eosState.set_paused false).1.srcState = GstState.playing ∧
    Command.setState GstState.playing ∈ (eosState.set_paused false).2 := by
  refine ⟨rfl, rfl, ?_⟩
  simp [Internal.set_paused, eosState, exState]

/-- C3 (amended): for every state with `is_eos = true`, `set_paused(false)`
arms the `restart_stream` flag, so the actual restart happens on the next
poll — but it also sets the backend to the playing state (the only backend
command it issues is `set_state(Playing)`). -/
theorem set_paused_arms_restart_at_eos (s : Internal) (h : s.is_eos = true) :
    (s.set_paused false).1.restart_stream = true ∧
    (s.set_paused false).1.srcState = GstState.playing ∧
    (s.set_paused false).2 = [Command.setState GstState.playing] := by
  simp [Internal.set_paused, h]

/-- Witness for `set_paused_arms_restart_at_eos` at the concrete EOS state. -/
theorem set_paused_arms_restart_at_eos_witness :
    (eosState.set_paused false).1.restart_stream = true ∧
    (eosState.set_paused false).1.srcState = GstState.playing ∧
    (eosState.set_paused false).2 = [Command.setState GstState.playing] :=
  set_paused_arms_restart_at_eos eosState rfl

lemma rclamp_eq_max_min (x lo hi : ℚ) (h : lo ≤ hi) :
    rclamp x lo hi = max lo (min hi x) := by
  unfold rclamp
  rcases lt_or_le x lo with h1 | h1
  · rw [if_pos h1, min_eq_right (le_of_lt (lt_of_lt_of_le h1 h)), max_eq_left (le_of_lt h1)]
  · rw [if_neg (not_lt.mpr h1)]
    rcases lt_or_le hi x with h2 | h2
    · rw [if_pos h2, min_eq_left (le_of_lt h2), max_eq_right h]
    · rw [if_neg (not_lt.mpr h2), min_eq_right h2, max_eq_right h1]

/-- C9: every filter setter applies the input clamped to its fixed domain
(gamma to `[1, 3]`, brightness to `[-1, 1]`, contrast to `[0, 2]`, hue to
`[-1, 1]`, saturation to `[0, 2]`); in particular `set_gamma 10` applies
exactly 3 and `set_gamma (-5)` exactly 1; and when the corresponding filter
element is absent every setter is a no-op and every getter returns the
documented default (gamma 1, contrast 1, saturation 1, brightness 0,
hue 0). -/
theorem filter_clamp_and_defaults (f : VideoFilters) (x : ℚ) :
    (Video.set_gamma f x).gamma =
      f.gamma.map (fun bin => { bin with gamma := max 1 (min 3 x) }) ∧
    (Video.set_brightness f x).balance =
      f.balance.map (fun bal => { bal with brightness := max (-1) (min 1 x) }) ∧
    (Video.set_contrast f x).balance =
      f.balance.map (fun bal => { bal with contrast := max 0 (min 2 x) }) ∧
    (Video.set_hue f x).balance =
      f.balance.map (fun bal => { bal with hue := max (-1) (min 1 x) }) ∧
    (Video.set_saturation f x).balance =
      f.balance.map (fun bal => { bal with saturation := max 0 (min 2 x) }) ∧
    Video.gamma (Video.set_gamma { f with gamma := some { gamma := 1 } } 10) = 3 ∧
    Video.gamma (Video.set_gamma { f with gamma := some { gamma := 1 } } (-5)) = 1 ∧
    (f.gamma = none → Video.set_gamma f x = f ∧ Video.gamma f = 1) ∧
    (f.balance = none →
      Video.set_brightness f x = f ∧ Video.set_contrast f x = f ∧
      Video.set_hue f x = f ∧ Video.set_saturation f x = f ∧
      Video.brightness f = 0 ∧ Video.contrast f = 1 ∧
      Video.hue f = 0 ∧ Video.saturation f = 1) := by
  have c13 := fun y => rclamp_eq_max_min y 1 3 (by norm_num)
  have c11 := fun y => rclamp_eq_max_min y (-1) 1 (by norm_num)
  have c02 := fun y => rclamp_eq_max_min y 0 2 (by norm_num)
  refine ⟨?_, ?_, ?_, ?_, ?_, ?_, ?_, ?_, ?_⟩
  · cases hg : f.gamma <;> simp [Video.set_gamma, hg, c13]
  · cases hb : f.balance <;> simp [Video.set_brightness, hb, c11]
  · cases hb : f.balance <;> simp [Video.set_contrast, hb, c02]
  · cases hb : f.balance <;> simp [Video.set_hue, hb, c11]
  · cases hb : f.balance <;> simp [Video.set_saturation, hb, c02]
  · simp [Video.set_gamma, Video.gamma, rclamp]
    norm_num
  · simp [Video.set_gamma, Video.gamma, rclamp]
    norm_num
  · intro hg
    simp [Video.set_gamma, Video.gamma, hg]
  · intro hb
    simp [Video.set_brightness, Video.set_contrast, Video.set_hue,
      Video.set_saturation, Video.brightness, Video.contrast, Video.hue,
      Video.saturation, hb]

/-- Witness for `filter_clamp_and_defaults`: absent elements make setters
no-ops and getters return the defaults; a present gamma element clamps 10
to 3. -/
theorem filter_clamp_and_defaults_witness :
    Video.set_gamma { balance := none, gamma := none } 5 =
      { balance := none, gamma := none } ∧
    Video.gamma { balance := none, gamma := none } = 1 ∧
    Video.brightness { balance := none, gamma := none } = 0 ∧
    (Video.set_gamma { balance := none, gamma := some { gamma := 1 } } 10).gamma =
      some { gamma := 3 } := by
  have h := filter_clamp_and_defaults { balance := none, gamma := none } 5
  have h2 := (filter_clamp_and_defaults { balance := none, gamma := some { gamma := 1 } } 10).1
  refine ⟨(h.2.2.2.2.2.2.2.1 rfl).1, (h.2.2.2.2.2.2.2.1 rfl).2,
    (h.2.2.2.2.2.2.2.2 rfl).2.2.2.2.1, ?_⟩
  rw [h2]
  norm_num

/-- C5: when AV-offset is supported, each latency sample bumps the counter
`n` and updates the running average to `avg * (n-1) / n + sample / n` in
(non-overflowing) `u64` arithmetic, pushing `-avg` to the backend's
`av-offset` property exactly when `n` is divisible by 128; when AV-offset is
unsupported nothing changes and nothing is pushed. -/
theorem set_av_offset_running_average (s : Internal) (sample : Nat)
    (hav : s.sync_av = true)
    (hc : s.sync_av_counter + 1 < 2 ^ 64)
    (hm : s.sync_av_avg * s.sync_av_counter < 2 ^ 64)
    (hs : sample < 2 ^ 64) :
    (s.set_av_offset sample).1 =
      { s with
          sync_av_counter := s.sync_av_counter + 1,
          sync_av_avg :=
            s.sync_av_avg * (s.sync_av_counter + 1 - 1) / (s.sync_av_counter + 1)
              + sample / (s.sync_av_counter + 1) } ∧
    (s.set_av_offset sample).2 =
      (if (s.sync_av_counter + 1) % 128 = 0 then
        [Command.setAvOffset
          (-((s.sync_av_avg * (s.sync_av_counter + 1 - 1) / (s.sync_av_counter + 1)
              + sample / (s.sync_av_counter + 1) : Nat) : ℤ))]
      else []) ∧
    (∀ t : Internal, t.sync_av = false → t.set_av_offset sample = (t, [])) := by
  have hc' : (s.sync_av_counter + 1) % 2 ^ 64 = s.sync_av_counter + 1 :=
    Nat.mod_eq_of_lt hc
  have hm' : s.sync_av_avg * s.sync_av_counter % 2 ^ 64 =
      s.sync_av_avg * s.sync_av_counter := Nat.mod_eq_of_lt hm
  have hs' : sample % 2 ^ 64 = sample := Nat.mod_eq_of_lt hs
  have hlt : s.sync_av_avg * s.sync_av_counter / (s.sync_av_counter + 1)
      + sample / (s.sync_av_counter + 1) < 2 ^ 64 := by
    rcases Nat.eq_zero_or_pos s.sync_av_counter with h0 | h0
    · simp only [h0, Nat.mul_zero, Nat.zero_div, Nat.zero_add, Nat.div_one]
      omega
    · have d1 : s.sync_av_avg * s.sync_av_counter / (s.sync_av_counter + 1)
          ≤ s.sync_av_avg * s.sync_av_counter / 2 :=
        Nat.div_le_div_left (by omega) (by norm_num)
      have d2 : sample / (s.sync_av_counter + 1) ≤ sample / 2 :=
        Nat.div_le_div_left (by omega) (by norm_num)
      omega
  have hnewmod : (s.sync_av_avg * s.sync_av_counter / (s.sync_av_counter + 1)
      + sample / (s.sync_av_counter + 1)) % 2 ^ 64 =
      s.sync_av_avg * s.sync_av_counter / (s.sync_av_counter + 1)
        + sample / (s.sync_av_counter + 1) := Nat.mod_eq_of_lt hlt
  have key : s.set_av_offset sample =
      ({ s with
          sync_av_counter := s.sync_av_counter + 1,
          sync_av_avg :=
            s.sync_av_avg * (s.sync_av_counter + 1 - 1) / (s.sync_av_counter + 1)
              + sample / (s.sync_av_counter + 1) },
        if (s.sync_av_counter + 1) % 128 = 0 then
          [Command.setAvOffset
            (-toI64 (s.sync_av_avg * (s.sync_av_counter + 1 - 1) / (s.sync_av_counter + 1)
              + sample / (s.sync_av_counter + 1)))]
        else []) := by
    simp only [Internal.set_av_offset, hav, if_true, beq_iff_eq, Nat.add_sub_cancel]
    rw [hc', Nat.add_sub_cancel, hm', hs', hnewmod]
    split <;> rfl
  refine ⟨?_, ?_, fun t ht => by simp [Internal.set_av_offset, ht]⟩
  · rw [key]
  · rw [key]
    by_cases hp : (s.sync_av_counter + 1) % 128 = 0
    · have h128 : 128 ≤ s.sync_av_counter + 1 :=
        Nat.le_of_dvd (by omega) (Nat.dvd_of_mod_eq_zero hp)
      have b1 : s.sync_av_avg * s.sync_av_counter / (s.sync_av_counter + 1)
          ≤ s.sync_av_avg * s.sync_av_counter / 128 :=
        Nat.div_le_div_left h128 (by norm_num)
      have b2 : sample / (s.sync_av_counter + 1) ≤ sample / 128 :=
        Nat.div_le_div_left h128 (by norm_num)
      have hsmall : s.sync_av_avg * (s.sync_av_counter + 1 - 1) / (s.sync_av_counter + 1)
          + sample / (s.sync_av_counter + 1) < 2 ^ 63 := by
        rw [Nat.add_sub_cancel]
        omega
      have hmod2 : (s.sync_av_avg * (s.sync_av_counter + 1 - 1) / (s.sync_av_counter + 1)
          + sample / (s.sync_av_counter + 1)) % 2 ^ 64 =
          s.sync_av_avg * (s.sync_av_counter + 1 - 1) / (s.sync_av_counter + 1)
            + sample / (s.sync_av_counter + 1) := by
        rw [Nat.add_sub_cancel]
        exact hnewmod
      have ht : toI64 (s.sync_av_avg * (s.sync_av_counter + 1 - 1) / (s.sync_av_counter + 1)
          + sample / (s.sync_av_counter + 1)) =
          ((s.sync_av_avg * (s.sync_av_counter + 1 - 1) / (s.sync_av_counter + 1)
            + sample / (s.sync_av_counter + 1) : Nat) : ℤ) := by
        unfold toI64
        rw [hmod2, if_pos hsmall]
        omega
      simp only [hp, if_true, ite_true, ht]
    · simp only [hp, if_false, ite_false]

/-- Witness for `set_av_offset_running_average`: the 128th sample (counter
127 → 128, average 7, sample 400) updates the average to
`7 * 127 / 128 + 400 / 128 = 9` and pushes `-9`. -/
theorem set_av_offset_running_average_witness :
    ({ exState with sync_av_counter := 127, sync_av_avg := 7 }.set_av_offset 400).1 =
      { exState with sync_av_counter := 128, sync_av_avg := 9 } ∧
    ({ exState with sync_av_counter := 127, sync_av_avg := 7 }.set_av_offset 400).2 =
      [Command.setAvOffset (-9)] := by
  have h := set_av_offset_running_average
    { exState with sync_av_counter := 127, sync_av_avg := 7 } 400
    rfl (by norm_num) (by norm_num) (by norm_num)
  refine ⟨?_, ?_⟩
  · rw [h.1]
    decide
  · rw [h.2.1]
    decide

lemma drainFlags_fst_of_looping (msgs : List BusMsg) : ∀ acc : Bool × Bool,
    (drainFlags true msgs acc).1 = (acc.1 || msgs.any fun m => m == BusMsg.eos) := by
  induction msgs with
  | nil => intro acc; simp [drainFlags]
  | cons m ms ih =>
    intro acc
    cases m
    · simp [drainFlags, ih, show (BusMsg.error == BusMsg.eos) = false from rfl]
    · simp [drainFlags, ih]

/-- C2: whenever `looping = true` and an EOS message is drained during a
redraw poll (the poll enters the drain branch: a restart is pending, or the
stream is neither at EOS nor paused), that poll step ends with
`is_eos = false`, the backend in the playing state and the restart flag
clear; the backend commands issued are exactly `set_state(Playing)`
followed by a seek to position 0 — in particular no `set_state(Paused)`
(no pause) is applied at any point of the step. -/
theorem loop_eos_restarts_without_pause (s : Internal) (msgs : List BusMsg)
    (seekOk : Bool) (frameNs : Nat → Nat)
    (hloop : s.looping = true)
    (hmem : BusMsg.eos ∈ msgs)
    (hbranch : s.restart_stream = true ∨ (s.is_eos = false ∧ s.paused = false)) :
    (VideoPlayer.update_redraw seekOk frameNs msgs s).1.is_eos = false ∧
    (VideoPlayer.update_redraw seekOk frameNs msgs s).1.srcState = GstState.playing ∧
    (VideoPlayer.update_redraw seekOk frameNs msgs s).1.restart_stream = false ∧
    (VideoPlayer.update_redraw seekOk frameNs msgs s).2 =
      [Command.setState GstState.playing,
        Command.seek s.speed true false (SeekBound.set (Position.frame 0))
          SeekBound.unset] ∧
    Command.setState GstState.paused ∉ (VideoPlayer.update_redraw seekOk frameNs msgs s).2 := by
  have hany : (msgs.any fun m => m == BusMsg.eos) = true :=
    List.any_eq_true.mpr ⟨BusMsg.eos, hmem, rfl⟩
  have hcond : (s.restart_stream || (!s.is_eos && !s.paused)) = true := by
    rcases hbranch with h | ⟨h1, h2⟩
    · simp [h]
    · simp [h1, h2]
  have key : VideoPlayer.update_redraw seekOk frameNs msgs s =
      ({ s with
          is_eos := false
          restart_stream := false
          srcState := GstState.playing
          position := if seekOk then frameNs 0 else s.position },
        [Command.setState GstState.playing,
          Command.seek s.speed true false (SeekBound.set (Position.frame 0))
            SeekBound.unset]) := by
    unfold VideoPlayer.update_redraw
    rw [hcond]
    cases hrs : s.restart_stream
    all_goals simp only [Bool.false_eq_true, if_false, if_true, ite_true, ite_false,
      eq_self_iff_true]
    all_goals simp only [hloop]
    all_goals rw [drainFlags_fst_of_looping]
    all_goals simp only [hany, Bool.or_true, if_true, ite_true, eq_self_iff_true]
    all_goals cases seekOk
    all_goals simp [Internal.restartStream, Internal.set_paused, Internal.seek,
      Position.toNs, hrs, hloop]
  rw [key]
  refine ⟨rfl, rfl, rfl, rfl, ?_⟩
  simp

/-- Witness for `loop_eos_restarts_without_pause`: a playing, looping state
draining a single EOS message. -/
theorem loop_eos_restarts_without_pause_witness :
    (VideoPlayer.update_redraw true (fun _ => 0) [BusMsg.eos]
      { exState with looping := true }).1.is_eos = false ∧
    (VideoPlayer.update_redraw true (fun _ => 0) [BusMsg.eos]
      { exState with looping := true }).1.srcState = GstState.playing ∧
    (VideoPlayer.update_redraw true (fun _ => 0) [BusMsg.eos]
      { exState with looping := true }).2 =
      [Command.setState GstState.playing,
        Command.seek 1 true false (SeekBound.set (Position.frame 0))
          SeekBound.unset] ∧
    Command.setState GstState.paused ∉
      (VideoPlayer.update_redraw true (fun _ => 0) [BusMsg.eos]
        { exState with looping := true }).2 := by
  have h := loop_eos_restarts_without_pause { exState with looping := true }
    [BusMsg.eos] true (fun _ => 0) rfl (List.mem_singleton.mpr rfl)
    (Or.inr ⟨rfl, rfl⟩)
  exact ⟨h.1, h.2.1, h.2.2.2.1, h.2.2.2.2⟩

lemma set_paused_false_state (s : Internal) :
    (s.set_paused false).1 =
      { s with
          srcState := GstState.playing
          restart_stream := s.restart_stream || s.is_eos } := by
  cases he : s.is_eos <;> cases hr : s.restart_stream <;>
    simp [Internal.set_paused, he, hr]

/-- Outcome of an engine access to a lock-protected nanosecond value. -/
inductive LockOutcome
  | value (ns : Nat)
  | error (e : Error)
  deriving DecidableEq, Repr

/-- What the `last_frame_time` access in `VideoPlayer::draw`
(`src/video_player.rs:313-317`) hands to the caller: always a value — a
poisoned lock is replaced by `Instant::now()` via `unwrap_or_else`, and no
error can be surfaced on this path. -/
def VideoPlayer.drawLockOutcome (poisoned : Bool) (stored now : Nat) : LockOutcome :=
  LockOutcome.value (VideoPlayer.drawLastFrameTime poisoned stored now)

/-- C7 counterexample: with the `last_frame_time` lock poisoned (stored
time 5, current instant 42), the draw path completes with the substituted
value 42; the caller does not receive the `LockError` error value. -/
theorem draw_poisoned_lock_substitutes_default :
    VideoPlayer.drawLockOutcome true 5 42 = LockOutcome.value 42 ∧
    VideoPlayer.drawLockOutcome true 5 42 ≠ LockOutcome.error Error.lock := by
  exact ⟨rfl, by decide⟩

/-- C7 (amended): a poisoning of the shared frame-buffer mutex is surfaced
as `LockError` by thumbnail extraction (any non-empty position list returns
`Error::Lock` to the caller), but the draw path's `last_frame_time` lock is
never surfaced as an error — the current instant is substituted instead. -/
theorem poisoned_lock_surfacing (stored now : Nat) (s : Internal)
    (frameNs : Nat → Nat) (query : Option Nat)
    (frames : Nat → Option (List Nat)) (p : Position) (ps : List Position)
    (d : Nat) (hp : s.framePoisoned = true) :
    VideoPlayer.drawLockOutcome true stored now = LockOutcome.value now ∧
    ∃ s' cmds, Video.thumbnails true frameNs query frames s (p :: ps) d =
      some (s', cmds, Except.error Error.lock) := by
  refine ⟨rfl, ?_⟩
  simp only [Video.thumbnails, thumbLoop, Internal.seek, set_paused_false_state,
    Video.set_muted, Position.toNs, hp, if_true, ite_true]
  exact ⟨_, _, rfl⟩

/-- Witness for `poisoned_lock_surfacing` at a concrete poisoned state. -/
theorem poisoned_lock_surfacing_witness :
    VideoPlayer.drawLockOutcome true 5 42 = LockOutcome.value 42 ∧
    ∃ s' cmds, Video.thumbnails true (fun _ => 0) none (fun _ => none)
      { exState with framePoisoned := true } [Position.time 3] 1 =
      some (s', cmds, Except.error Error.lock) :=
  poisoned_lock_surfacing 5 42 { exState with framePoisoned := true }
    (fun _ => 0) none (fun _ => none) (Position.time 3) [] 1 rfl

lemma thumbLoop_preserves (seekOk : Bool) (frameNs : Nat → Nat)
    (frames : Nat → Option (List Nat)) (w h d : Nat) :
    ∀ (ps : List Position) (i : Nat) (st st2 : Internal) (cs : List Command)
      (r : Except Error (List (List Nat))),
      thumbLoop seekOk frameNs frames w h d ps i st = some (st2, cs, r) →
      st2 = { st with position := st2.position } := by
  intro ps
  induction ps with
  | nil =>
    intro i st st2 cs r hres
    simp only [thumbLoop, Option.some.injEq, Prod.mk.injEq] at hres
    rcases hres with ⟨rfl, -, -⟩
    rfl
  | cons p ps ih =>
    intro i st st2 cs r hres
    cases seekOk with
    | false =>
      simp only [thumbLoop, Internal.seek, Bool.false_eq_true, if_false,
        ite_false, Option.some.injEq, Prod.mk.injEq] at hres
      rcases hres with ⟨rfl, -, -⟩
      rfl
    | true =>
      simp only [thumbLoop, Internal.seek, if_true, ite_true] at hres
      by_cases hfp : st.framePoisoned = true
      · simp only [hfp, if_true, ite_true, Option.some.injEq, Prod.mk.injEq] at hres
        rcases hres with ⟨rfl, -, -⟩
        simp [hfp]
      · rw [Bool.not_eq_true] at hfp
        simp only [hfp, if_false, Bool.false_eq_true, ite_false] at hres
        cases hfr : frames i with
        | none =>
          rw [hfr] at hres
          simp only [Option.some.injEq, Prod.mk.injEq] at hres
          rcases hres with ⟨rfl, -, -⟩
          simp [hfp]
        | some bytes =>
          rw [hfr] at hres
          dsimp only at hres
          cases hy : yuv_to_rgba bytes w h d with
          | none => rw [hy] at hres; exact absurd hres (by simp)
          | some img =>
            rw [hy] at hres
            cases hrec : thumbLoop true frameNs frames w h d ps (i + 1)
                { st with position := p.toNs frameNs, framePoisoned := false } with
            | none => rw [hrec] at hres; exact absurd hres (by simp)
            | some trip =>
              obtain ⟨st3, cs3, r3⟩ := trip
              rw [hrec] at hres
              have h3 := ih (i + 1)
                { st with position := p.toNs frameNs, framePoisoned := false }
                st3 cs3 r3 hrec
              cases r3 with
              | error e =>
                simp only [Option.some.injEq, Prod.mk.injEq] at hres
                rcases hres with ⟨rfl, -, -⟩
                rw [h3]
                simp [hfp]
              | ok imgs =>
                simp only [Option.some.injEq, Prod.mk.injEq] at hres
                rcases hres with ⟨rfl, -, -⟩
                rw [h3]
                simp [hfp]

lemma set_paused_cmds (s : Internal) (b : Bool) :
    (s.set_paused b).2 =
      [Command.setState (if b then GstState.paused else GstState.playing)] := by
  simp [Internal.set_paused]

/-- C4 (amended): for every prior state with paused = false, muted = false
and queried position P, after `Video::thumbnails` returns — whether Ok or
Err — the paused flag is false, the muted flag is false, an accurate seek
back to time P has been issued, the position is back at P whenever the
backend accepts seeks, and speed, looping and is_eos are unmodified; the
restart-pending flag however is left armed exactly when it was already
armed or is_eos was set (the unpause and restore `set_paused(false)` calls
arm it at EOS). -/
theorem thumbnails_restores_transport (s : Internal) (positions : List Position)
    (d P : Nat) (seekOk : Bool) (frameNs : Nat → Nat)
    (frames : Nat → Option (List Nat)) (s' : Internal) (cmds : List Command)
    (res : Except Error (List (List Nat)))
    (hpaused : s.paused = false) (hmuted : s.muted = false)
    (hres : Video.thumbnails seekOk frameNs (some P) frames s positions d =
      some (s', cmds, res)) :
    s'.paused = false ∧ s'.muted = false ∧
    Command.seek s.speed true true (SeekBound.set (Position.time P))
      SeekBound.unset ∈ cmds ∧
    (seekOk = true → s'.position = P) ∧
    s'.speed = s.speed ∧ s'.looping = s.looping ∧ s'.is_eos = s.is_eos ∧
    s'.restart_stream = (s.restart_stream || s.is_eos) := by
  unfold Video.thumbnails at hres
  rw [hpaused, hmuted] at hres
  simp only [Option.getD_some] at hres
  cases hloop : thumbLoop seekOk frameNs frames s.width s.height d positions 0
      (Video.set_muted (s.set_paused false).1 true).1 with
  | none => rw [hloop] at hres; exact absurd hres (by simp)
  | some trip =>
  obtain ⟨st, csLoop, out⟩ := trip
  rw [hloop] at hres
  dsimp only at hres
  have hst := thumbLoop_preserves seekOk frameNs frames s.width s.height d
    positions 0 _ st csLoop out hloop
  simp only [Video.set_muted, set_paused_false_state] at hst
  have hspeed : st.speed = s.speed := by rw [hst]
  have hlooping : st.looping = s.looping := by rw [hst]
  have heos : st.is_eos = s.is_eos := by rw [hst]
  have hrs : st.restart_stream = (s.restart_stream || s.is_eos) := by rw [hst]
  simp only [set_paused_false_state, set_paused_cmds, Video.set_muted,
    Internal.seek, Position.toNs] at hres
  cases seekOk with
  | true =>
    simp only [if_true, ite_true, Option.some.injEq, Prod.mk.injEq] at hres
    rcases hres with ⟨rfl, rfl, rfl⟩
    refine ⟨?_, ?_, ?_, ?_, ?_, ?_, ?_, ?_⟩ <;>
      simp [Internal.paused, hspeed, hlooping, heos, hrs, Bool.or_assoc,
        Bool.or_self]
  | false =>
    simp only [Bool.false_eq_true, if_false, ite_false, Option.some.injEq,
      Prod.mk.injEq] at hres
    rcases hres with ⟨rfl, rfl, rfl⟩
    refine ⟨?_, ?_, ?_, ?_, ?_, ?_, ?_, ?_⟩ <;>
      simp [Internal.paused, hspeed, hlooping, heos, hrs, Bool.or_assoc,
        Bool.or_self]

/-- A concrete playing, unmuted state whose EOS flag is set (as after an EOS
followed by `SetPaused(false)` traffic). -/
def eosPlayingState : Internal :=
  { exState with is_eos := true }

/-- C4 counterexample: at a concrete prior state with paused = false,
muted = false and restart_stream = false (but is_eos = true), a thumbnails
call with an empty position list returns Ok, restores paused/muted/position
— yet leaves the restart-pending flag armed: transport state other than
paused, muted and position has been modified. -/
theorem thumbnails_modifies_restart_flag :
    eosPlayingState.paused = false ∧ eosPlayingState.muted = false ∧
    eosPlayingState.restart_stream = false ∧
    ((Video.thumbnails true (fun _ => 0) (some 7) (fun _ => none)
        eosPlayingState [] 1).map fun r => r.1.restart_stream) = some true := by
  decide

/-- The backend commands issued by the witness thumbnails run. -/
def thumbCmds : List Command :=
  [Command.setState GstState.playing, Command.setMute true,
    Command.setState GstState.playing, Command.setMute false,
    Command.seek 1 true true (SeekBound.set (Position.time 7)) SeekBound.unset]

/-- Witness for `thumbnails_restores_transport`: an empty-position run from
the concrete playing state at queried position 7. -/
theorem thumbnails_restores_transport_witness :
    ({ exState with position := 7 } : Internal).paused = false ∧
    ({ exState with position := 7 } : Internal).muted = false ∧
    Command.seek exState.speed true true (SeekBound.set (Position.time 7))
      SeekBound.unset ∈ thumbCmds ∧
    (true = true → ({ exState with position := 7 } : Internal).position = 7) ∧
    ({ exState with position := 7 } : Internal).speed = exState.speed ∧
    ({ exState with position := 7 } : Internal).looping = exState.looping ∧
    ({ exState with position := 7 } : Internal).is_eos = exState.is_eos ∧
    ({ exState with position := 7 } : Internal).restart_stream =
      (exState.restart_stream || exState.is_eos) :=
  thumbnails_restores_transport exState [] 1 7 true (fun _ => 0) (fun _ => none)
    { exState with position := 7 } thumbCmds (Except.ok []) rfl rfl rfl

lemma u8cast_eq_clamp (q : ℚ) :
    u8cast q = Int.toNat (min 255 (max 0 ⌊q⌋)) := by
  unfold u8cast
  by_cases h : q < 0
  · have hf : ⌊q⌋ < 0 := Int.floor_lt.mpr (by exact_mod_cast h)
    rw [if_pos h]
    omega
  · have hf : 0 ≤ ⌊q⌋ := Int.floor_nonneg.mpr (not_lt.mp h)
    rw [if_neg h]
    omega

/-- C6: every output pixel of the NV12→RGBA conversion carries the channel
values `r = 1.164(Y-16) + 1.596(V-128)`, `g = 1.164(Y-16) - 0.813(V-128) -
0.391(U-128)`, `b = 1.164(Y-16) + 2.018(U-128)` and alpha 255, each channel
clamped to the integer range 0–255 on the cast; studio-range white
Y=235,U=V=128 yields (254,254,254,255) — within one code value of
(255,255,255,255) — and black Y=16,U=V=128 yields (0,0,0,255) exactly, also
through the full conversion of a 2×2 all-white NV12 frame. (The source's
`f32` arithmetic is modelled by exact rational arithmetic; the claimed
values are insensitive to the rounding difference.) -/
theorem yuv_pixel_formula (yb ub vb : Nat) :
    pixelRGBA yb ub vb =
      [Int.toNat (min 255 (max 0
          ⌊(1.164 * ((yb : ℚ) - 16) + 1.596 * ((vb : ℚ) - 128) : ℚ)⌋)),
        Int.toNat (min 255 (max 0
          ⌊(1.164 * ((yb : ℚ) - 16) - 0.813 * ((vb : ℚ) - 128)
            - 0.391 * ((ub : ℚ) - 128) : ℚ)⌋)),
        Int.toNat (min 255 (max 0
          ⌊(1.164 * ((yb : ℚ) - 16) + 2.018 * ((ub : ℚ) - 128) : ℚ)⌋)),
        255] ∧
    pixelRGBA 235 128 128 = [254, 254, 254, 255] ∧
    (∀ c ∈ (pixelRGBA 235 128 128).take 3, 255 - c ≤ 1) ∧
    pixelRGBA 16 128 128 = [0, 0, 0, 255] ∧
    yuv_to_rgba [235, 235, 235, 235, 128, 128] 2 2 1 =
      some [254, 254, 254, 255, 254, 254, 254, 255, 254, 254, 254, 255,
        254, 254, 254, 255] := by
  have hwhite : pixelRGBA 235 128 128 = [254, 254, 254, 255] := by
    norm_num [pixelRGBA, u8cast, Int.toNat_ofNat]
    all_goals decide
  have hframe : yuv_to_rgba [235, 235, 235, 235, 128, 128] 2 2 1 =
      some ([pixelRGBA 235 128 128, pixelRGBA 235 128 128,
        pixelRGBA 235 128 128, pixelRGBA 235 128 128].flatten) := rfl
  refine ⟨?_, hwhite, ?_, ?_, ?_⟩
  · simp only [pixelRGBA, u8cast_eq_clamp]
  · rw [hwhite]
    simp
  · norm_num [pixelRGBA, u8cast, Int.toNat_ofNat]
  · rw [hframe, hwhite]
    simp

lemma optMapM_isSome {α β : Type} (f : α → Option β) :
    ∀ l : List α, (∀ a ∈ l, (f a).isSome) → (optMapM f l).isSome := by
  intro l
  induction l with
  | nil => intro _; rfl
  | cons a l ih =>
    intro hall
    obtain ⟨b, hb⟩ := Option.isSome_iff_exists.mp (hall a (List.mem_cons_self a l))
    obtain ⟨bs, hbs⟩ := Option.isSome_iff_exists.mp
      (ih fun x hx => hall x (List.mem_cons_of_mem a hx))
    simp [optMapM, hb, hbs]

lemma optMapM_length_eq {α β : Type} (f : α → Option β) :
    ∀ (l : List α) (out : List β), optMapM f l = some out →
      out.length = l.length := by
  intro l
  induction l with
  | nil =>
    intro out hout
    simp only [optMapM, Option.some.injEq] at hout
    subst hout
    rfl
  | cons a l ih =>
    intro out hout
    simp only [optMapM] at hout
    cases hfa : f a with
    | none => rw [hfa] at hout; exact absurd hout (by simp)
    | some b =>
      rw [hfa] at hout
      cases hml : optMapM f l with
      | none => rw [hml] at hout; exact absurd hout (by simp)
      | some bs =>
        rw [hml] at hout
        simp only [Option.some.injEq] at hout
        subst hout
        simp [ih bs hml]

lemma optMapM_mem {α β : Type} (f : α → Option β) :
    ∀ (l : List α) (out : List β), optMapM f l = some out →
      ∀ b ∈ out, ∃ a ∈ l, f a = some b := by
  intro l
  induction l with
  | nil =>
    intro out hout b hb
    simp only [optMapM, Option.some.injEq] at hout
    subst hout
    exact absurd hb (by simp)
  | cons a l ih =>
    intro out hout b hb
    simp only [optMapM] at hout
    cases hfa : f a with
    | none => rw [hfa] at hout; exact absurd hout (by simp)
    | some c =>
      rw [hfa] at hout
      cases hml : optMapM f l with
      | none => rw [hml] at hout; exact absurd hout (by simp)
      | some bs =>
        rw [hml] at hout
        simp only [Option.some.injEq] at hout
        subst hout
        rcases List.mem_cons.mp hb with rfl | hb2
        · exact ⟨a, List.mem_cons_self a l, hfa⟩
        · obtain ⟨x, hx, hfx⟩ := ih bs hml b hb2
          exact ⟨x, List.mem_cons_of_mem a hx, hfx⟩

lemma yuvPixel_length (yuv : List Nat) (w h d y x : Nat) (p : List Nat)
    (hp : yuvPixel yuv w h d y x = some p) : p.length = 4 := by
  simp only [yuvPixel] at hp
  cases e1 : yuv[y * d * w + x * d]? with
  | none => rw [e1] at hp; exact absurd hp (by simp)
  | some yb =>
    rw [e1] at hp
    cases e2 : yuv[w * h + w * (y * d / 2) + x * d / 2 * 2]? with
    | none => rw [e2] at hp; exact absurd hp (by simp)
    | some ub =>
      rw [e2] at hp
      cases e3 : yuv[w * h + w * (y * d / 2) + x * d / 2 * 2 + 1]? with
      | none => rw [e3] at hp; exact absurd hp (by simp)
      | some vb =>
        rw [e3] at hp
        simp only [Option.some.injEq] at hp
        subst hp
        rfl

lemma yuvPixel_isSome (yuv : List Nat) (w h d y x : Nat)
    (hw2 : w % 2 = 0) (hh2 : h % 2 = 0) (hd : 1 ≤ d)
    (hy : y < h / d) (hx : x < w / d)
    (hlen : w * h + w * h / 2 ≤ yuv.length) :
    (yuvPixel yuv w h d y x).isSome := by
  have hyd : y * d + d ≤ h := by
    have h1 : (y + 1) * d ≤ h / d * d := Nat.mul_le_mul_right d hy
    have h2 : h / d * d ≤ h := Nat.div_mul_le_self h d
    calc y * d + d = (y + 1) * d := by ring
      _ ≤ h / d * d := h1
      _ ≤ h := h2
  have hxd : x * d + d ≤ w := by
    have h1 : (x + 1) * d ≤ w / d * d := Nat.mul_le_mul_right d hx
    have h2 : w / d * d ≤ w := Nat.div_mul_le_self w d
    calc x * d + d = (x + 1) * d := by ring
      _ ≤ w / d * d := h1
      _ ≤ w := h2
  have hluma : y * d * w + x * d < yuv.length := by
    have h1 : y * d * w + x * d < y * d * w + w := by omega
    have h2 : y * d * w + w = (y * d + 1) * w := by ring
    have h3 : (y * d + 1) * w ≤ h * w := Nat.mul_le_mul_right w (by omega)
    have h4 : h * w = w * h := Nat.mul_comm h w
    omega
  have hj : y * d / 2 + 1 ≤ h / 2 :=
    Nat.div_lt_div_of_lt_of_dvd (Nat.dvd_of_mod_eq_zero hh2) (by omega)
  have ht : x * d / 2 + 1 ≤ w / 2 :=
    Nat.div_lt_div_of_lt_of_dvd (Nat.dvd_of_mod_eq_zero hw2) (by omega)
  have hk : h / 2 * 2 = h := Nat.div_mul_cancel (Nat.dvd_of_mod_eq_zero hh2)
  have hm : w / 2 * 2 = w := Nat.div_mul_cancel (Nat.dvd_of_mod_eq_zero hw2)
  have h3 : w * h / 2 = w * (h / 2) := by
    conv_lhs => rw [← hk]
    rw [show w * (h / 2 * 2) = w * (h / 2) * 2 by ring]
    exact Nat.mul_div_cancel _ (by norm_num)
  have h1 : w * (y * d / 2) + w ≤ w * (h / 2) := by
    have h5 : w * (y * d / 2) + w = w * (y * d / 2 + 1) := by ring
    rw [h5]
    exact Nat.mul_le_mul_left w hj
  have hchroma : w * h + w * (y * d / 2) + x * d / 2 * 2 + 1 < yuv.length := by
    omega
  have hchroma0 : w * h + w * (y * d / 2) + x * d / 2 * 2 < yuv.length := by
    omega
  simp only [yuvPixel]
  rw [List.getElem?_eq_getElem hluma, List.getElem?_eq_getElem hchroma0,
    List.getElem?_eq_getElem hchroma]
  rfl

/-- C10: for every even positive width and height, downscale factor `d ≥ 1`
and NV12 input of at least `w*h + w*h/2` bytes, every index the conversion
computes is in bounds — `yuv_to_rgba` returns a value rather than panicking
— and the output has exactly `4 * (w/d) * (h/d)` bytes. -/
theorem yuv_to_rgba_safe (yuv : List Nat) (w h d : Nat)
    (hw : 0 < w) (hh : 0 < h) (hw2 : w % 2 = 0) (hh2 : h % 2 = 0)
    (hd : 1 ≤ d) (hlen : w * h + w * h / 2 ≤ yuv.length) :
    ∃ out, yuv_to_rgba yuv w h d = some out ∧
      out.length = 4 * (w / d) * (h / d) := by
  have hin : ∀ y ∈ List.range (h / d),
      (optMapM (fun x => yuvPixel yuv w h d y x) (List.range (w / d))).isSome := by
    intro y hy
    exact optMapM_isSome _ _ fun x hx =>
      yuvPixel_isSome yuv w h d y x hw2 hh2 hd
        (List.mem_range.mp hy) (List.mem_range.mp hx) hlen
  obtain ⟨rows, hrows⟩ := Option.isSome_iff_exists.mp (optMapM_isSome _ _ hin)
  have hrowsLen : rows.length = h / d := by
    rw [optMapM_length_eq _ _ rows hrows, List.length_range]
  have hrowLen : ∀ row ∈ rows, row.length = w / d := by
    intro row hrow
    obtain ⟨y, -, hy⟩ := optMapM_mem _ _ rows hrows row hrow
    rw [optMapM_length_eq _ _ row hy, List.length_range]
  have hpixLen : ∀ pix ∈ rows.flatten, pix.length = 4 := by
    intro pix hpix
    obtain ⟨row, hrow, hpixrow⟩ := List.mem_flatten.mp hpix
    obtain ⟨y, -, hy⟩ := optMapM_mem _ _ rows hrows row hrow
    obtain ⟨x, -, hx⟩ := optMapM_mem _ _ row hy pix hpixrow
    exact yuvPixel_length yuv w h d y x pix hx
  refine ⟨rows.flatten.flatten, ?_, ?_⟩
  · simp only [yuv_to_rgba]
    rw [hrows]
  · have hflat1 : rows.flatten.length = (h / d) * (w / d) := by
      rw [List.length_flatten]
      rw [List.eq_replicate_of_mem (l := rows.map List.length) (a := w / d)
        (by intro b hb
            obtain ⟨row, hrow, rfl⟩ := List.mem_map.mp hb
            exact hrowLen row hrow)]
      rw [List.sum_replicate, List.length_map, hrowsLen, smul_eq_mul]
    have hflat2 : rows.flatten.flatten.length = rows.flatten.length * 4 := by
      rw [List.length_flatten]
      rw [List.eq_replicate_of_mem (l := rows.flatten.map List.length) (a := 4)
        (by intro b hb
            obtain ⟨pix, hpix, rfl⟩ := List.mem_map.mp hb
            exact hpixLen pix hpix)]
      rw [List.sum_replicate, List.length_map, smul_eq_mul]
    rw [hflat2, hflat1]
    ring

/-- Witness for `yuv_to_rgba_safe`: a 2×2 NV12 frame of 6 bytes at
downscale 1 converts to 16 output bytes. -/
theorem yuv_to_rgba_safe_witness :
    ∃ out, yuv_to_rgba [16, 16, 16, 16, 128, 128] 2 2 1 = some out ∧
      out.length = 4 * (2 / 1) * (2 / 1) :=
  yuv_to_rgba_safe [16, 16, 16, 16, 128, 128] 2 2 1 (by norm_num) (by norm_num)
    (by norm_num) (by norm_num) (by norm_num) (by norm_num)

end IcedVideoPlayer
